import Mathlib

/-!
Verification of the offline report queue and reconnect-triggered sync flow
of the coast-watch-hub repository.

The embedding covers:
* `src/lib/offline-storage.ts` — the local pending-report store
  (`savePendingReport`, `getPendingReports`, `removePendingReport`,
  `clearPendingReports`);
* `src/hooks/useOfflineSync.ts` — the sync orchestrator
  (`syncPendingReports`, `uploadPhoto`);
* the hazard-report form's `onSubmit` handler (submission path).

Modelling conventions:
* Browser `localStorage` is a single slot holding an optional serialized
  list (`Storage.slot`); `none` means the key is absent.  A storage-layer
  exception (quota, serialization) is modelled by a `persistOk : Bool`
  flag passed to each writing operation: when `false` the `setItem` call
  is taken to raise, and the operation's `catch` handler runs.
* `crypto.randomUUID()` and `Date.now()` are modelled as explicit
  `freshId` / `now` arguments.
* JS floats (`lat`, `lng`) are carried opaquely — the code never computes
  with them in this subsystem — so they are embedded as `Int` values.
* A `File` value is carried opaquely as a `String` reference.
* The remote collaborator (table insert, binary upload) is an oracle:
  `upload : Nat → Option String` gives the result of the i-th photo
  upload of a pass (`none` = upload failed, per `uploadPhoto`'s catch),
  and `insertOk : Nat → Bool` says whether the i-th remote insert of a
  pass succeeds.  Toasts and remote calls are collected in the result.
* JS truthiness: `report.notes || null` coerces both `undefined` and the
  empty string to `null`; this is `jsOrNull` below.
-/

namespace CoastWatch

/-- `PendingReport` from `src/lib/offline-storage.ts`. -/
structure PendingReport where
  id : String
  type : String
  severity : Nat
  lat : Int
  lng : Int
  notes : Option String
  photo : Option String
  timestamp : Nat
  status : String
  deriving Repr, DecidableEq

/-- The argument of `savePendingReport`:
`Omit<PendingReport, 'id' | 'timestamp' | 'status'>`. -/
structure ReportInput where
  type : String
  severity : Nat
  lat : Int
  lng : Int
  notes : Option String
  photo : Option String
  deriving Repr, DecidableEq

/-- The browser `localStorage` slot under the fixed key
`ocean_safety_pending_reports`: absent (`none`) or a serialized list. -/
structure Storage where
  slot : Option (List PendingReport)
  deriving Repr, DecidableEq

/-- `getPendingReports`: parse the slot, an absent (or corrupt) slot reads
as the empty list. -/
def getPendingReports (st : Storage) : List PendingReport :=
  st.slot.getD []

/-- `savePendingReport`: build the new record (fresh id, current time,
status `pending_upload`), append it and rewrite the slot.  Returns the new
id, or `none` when persistence raises (`persistOk = false`), in which case
the store is untouched. -/
def savePendingReport (persistOk : Bool) (freshId : String) (now : Nat)
    (report : ReportInput) (st : Storage) : Option String × Storage :=
  let pendingReports := getPendingReports st
  let newReport : PendingReport :=
    { id := freshId
      type := report.type
      severity := report.severity
      lat := report.lat
      lng := report.lng
      notes := report.notes
      photo := report.photo
      timestamp := now
      status := "pending_upload" }
  if persistOk then
    (some freshId, { slot := some (pendingReports ++ [newReport]) })
  else
    (none, st)

/-- `removePendingReport`: filter the parsed list to exclude the id and
rewrite the slot; when persistence raises the store is untouched (the
exception is caught and only logged). -/
def removePendingReport (persistOk : Bool) (id : String) (st : Storage) :
    Storage :=
  let pendingReports := getPendingReports st
  let filtered := pendingReports.filter (fun report => report.id ≠ id)
  if persistOk then
    { slot := some filtered }
  else
    st

/-- `clearPendingReports`: delete the storage slot entirely. -/
def clearPendingReports (persistOk : Bool) (st : Storage) : Storage :=
  if persistOk then { slot := none } else st

/-- JS `x || null` on an optional string: `undefined` and `""` both
become `null`. -/
def jsOrNull (notes : Option String) : Option String :=
  match notes with
  | none => none
  | some s => if s = "" then none else some s

/-- A toast notification, by call site. -/
inductive Toast where
  /-- sync pass: "Reports Synced" with the synced count -/
  | reportsSynced (count : Nat)
  /-- sync pass: "Sync Issues" with the failed count -/
  | syncIssues (count : Nat)
  /-- form: "Authentication Error" -/
  | authenticationError
  /-- form: "Report Saved Offline" (proactive offline queue) -/
  | reportSavedOffline
  /-- form: "Upload Error" (photo upload failed, report continues) -/
  | uploadError
  /-- form: "Report Submitted" -/
  | reportSubmitted
  /-- form: "Submission Error" (live failure while still online) -/
  | submissionError
  /-- form: "Saved Offline" (fallback queue from the catch handler) -/
  | savedOffline
  deriving Repr, DecidableEq

/-- The row passed to `supabase.from('reports').insert(...)`. -/
structure InsertRow where
  user_id : String
  type : String
  severity : Nat
  lat : Int
  lng : Int
  notes : Option String
  photo_url : Option String
  status : String
  deriving Repr, DecidableEq

/-- The insert row built by the sync loop for one pending report:
`notes: report.notes || null`, `status: 'pending'`. -/
def mkInsertRow (userId : String) (r : PendingReport)
    (photoUrl : Option String) : InsertRow :=
  { user_id := userId
    type := r.type
    severity := r.severity
    lat := r.lat
    lng := r.lng
    notes := jsOrNull r.notes
    photo_url := photoUrl
    status := "pending" }

/-- Observable outcome of one `syncPendingReports` invocation. -/
structure SyncResult where
  store : Storage
  syncedCount : Nat
  failedCount : Nat
  uploadCalls : Nat
  insertCalls : List InsertRow
  toasts : List Toast
  deriving Repr, DecidableEq

/-- Mutable state threaded through the sync loop. -/
structure SyncState where
  store : Storage
  syncedCount : Nat
  failedCount : Nat
  uploadCalls : Nat
  insertCalls : List InsertRow
  deriving Repr, DecidableEq

/-- The `for (const report of pendingReports)` loop of
`syncPendingReports`, processing the reports in stored order.  `i` is the
position of the current report in the snapshot read at the start of the
pass; `upload i` is the result of the photo upload issued for position
`i` (`uploadPhoto` catches its own errors and returns `null`), and
`insertOk i` tells whether the remote insert at position `i` succeeds.
On insert success the entry is removed from the store and the synced
counter bumped; on failure (the `catch`) only the failed counter is
bumped. -/
def syncLoop (userId : String) (upload : Nat → Option String)
    (insertOk : Nat → Bool) :
    List PendingReport → Nat → SyncState → SyncState
  | [], _, s => s
  | r :: rest, i, s =>
    let photoUrl : Option String :=
      match r.photo with
      | some _ => upload i
      | none => none
    let uploads : Nat :=
      match r.photo with
      | some _ => s.uploadCalls + 1
      | none => s.uploadCalls
    let row := mkInsertRow userId r photoUrl
    let s' : SyncState :=
      { s with uploadCalls := uploads, insertCalls := s.insertCalls ++ [row] }
    if insertOk i then
      syncLoop userId upload insertOk rest (i + 1)
        { s' with
          store := removePendingReport true r.id s'.store
          syncedCount := s'.syncedCount + 1 }
    else
      syncLoop userId upload insertOk rest (i + 1)
        { s' with failedCount := s'.failedCount + 1 }

/-- `syncPendingReports` from `src/hooks/useOfflineSync.ts`: guard on
authentication and connectivity, read the pending snapshot, process each
entry, then surface the aggregate toasts ("Reports Synced" when any
synced, "Sync Issues" when any failed). -/
def syncPendingReports (user : Option String) (online : Bool)
    (upload : Nat → Option String) (insertOk : Nat → Bool) (st : Storage) :
    SyncResult :=
  if user = none ∨ online = false then
    { store := st, syncedCount := 0, failedCount := 0, uploadCalls := 0
      insertCalls := [], toasts := [] }
  else
    match user with
    | none =>
      { store := st, syncedCount := 0, failedCount := 0, uploadCalls := 0
        insertCalls := [], toasts := [] }
    | some userId =>
      let pendingReports := getPendingReports st
      if pendingReports.length = 0 then
        { store := st, syncedCount := 0, failedCount := 0, uploadCalls := 0
          insertCalls := [], toasts := [] }
      else
        let s := syncLoop userId upload insertOk pendingReports 0
          { store := st, syncedCount := 0, failedCount := 0
            uploadCalls := 0, insertCalls := [] }
        let toasts₁ : List Toast :=
          if s.syncedCount > 0 then [Toast.reportsSynced s.syncedCount]
          else []
        let toasts₂ : List Toast :=
          if s.failedCount > 0 then
            toasts₁ ++ [Toast.syncIssues s.failedCount]
          else toasts₁
        { store := s.store, syncedCount := s.syncedCount
          failedCount := s.failedCount, uploadCalls := s.uploadCalls
          insertCalls := s.insertCalls, toasts := toasts₂ }

/-- The validated form data handed to `onSubmit` (`ReportFormData`). -/
structure ReportFormData where
  type : String
  severity : Nat
  lat : Int
  lng : Int
  notes : Option String
  deriving Repr, DecidableEq

/-- The candidate passed to `savePendingReport` by the form:
`{ type, severity, lat, lng, notes: data.notes, photo: photoFile || undefined }`. -/
def formInput (data : ReportFormData) (photoFile : Option String) :
    ReportInput :=
  { type := data.type
    severity := data.severity
    lat := data.lat
    lng := data.lng
    notes := data.notes
    photo := photoFile }

/-- Observable outcome of one `onSubmit` invocation. -/
structure SubmitResult where
  store : Storage
  toasts : List Toast
  uploadCalls : Nat
  insertCalls : List InsertRow
  deriving Repr, DecidableEq

/-- The form's `catch` handler: re-read the connectivity signal
(`onlineAtFailure`); while still online surface "Submission Error" and
queue nothing, while offline fall back to `savePendingReport` and, when
that save returns an id, surface "Saved Offline" (a failed fallback save
shows nothing). -/
def submitCatch (persist2 : Bool) (fresh2 : String) (now : Nat)
    (onlineAtFailure : Bool) (input : ReportInput) (st : Storage)
    (toasts : List Toast) : Storage × List Toast :=
  if onlineAtFailure then
    (st, toasts ++ [Toast.submissionError])
  else
    match savePendingReport persist2 fresh2 now input st with
    | (some _, st') => (st', toasts ++ [Toast.savedOffline])
    | (none, st') => (st', toasts)

/-- `onSubmit` of `HazardReportForm`.  `persist1` says whether the
proactive offline save's persistence succeeds, `persist2` the fallback
save's in the `catch` handler; `fresh1`/`fresh2` are the ids the two
saves would generate.  `uploadResult` is the live photo upload's outcome
(its own errors are caught inside `uploadPhoto`, which shows an
"Upload Error" toast and yields `null`); `insertOk` says whether the
live remote insert succeeds; `onlineAtFailure` is the connectivity
signal as re-read inside the `catch` handler. -/
def onSubmit (user : Option String) (onlineAtSubmit : Bool)
    (persist1 persist2 : Bool) (fresh1 fresh2 : String) (now : Nat)
    (uploadResult : Option String) (insertOk : Bool)
    (onlineAtFailure : Bool) (data : ReportFormData)
    (photoFile : Option String) (st : Storage) : SubmitResult :=
  match user with
  | none =>
    { store := st, toasts := [Toast.authenticationError]
      uploadCalls := 0, insertCalls := [] }
  | some uid =>
    if onlineAtSubmit = false then
      match savePendingReport persist1 fresh1 now (formInput data photoFile) st with
      | (some _, st') =>
        { store := st', toasts := [Toast.reportSavedOffline]
          uploadCalls := 0, insertCalls := [] }
      | (none, st') =>
        -- `throw new Error('Failed to save offline report')` lands in the catch
        let fallback := submitCatch persist2 fresh2 now onlineAtFailure
          (formInput data photoFile) st' []
        { store := fallback.1, toasts := fallback.2
          uploadCalls := 0, insertCalls := [] }
    else
      let uploadToasts : List Toast :=
        match photoFile, uploadResult with
        | some _, none => [Toast.uploadError]
        | _, _ => []
      let photoUrl : Option String :=
        match photoFile with
        | some _ => uploadResult
        | none => none
      let uploads : Nat :=
        match photoFile with
        | some _ => 1
        | none => 0
      let row : InsertRow :=
        { user_id := uid, type := data.type, severity := data.severity
          lat := data.lat, lng := data.lng, notes := jsOrNull data.notes
          photo_url := photoUrl, status := "pending" }
      if insertOk then
        { store := st, toasts := uploadToasts ++ [Toast.reportSubmitted]
          uploadCalls := uploads, insertCalls := [row] }
      else
        let fallback := submitCatch persist2 fresh2 now onlineAtFailure
          (formInput data photoFile) st uploadToasts
        { store := fallback.1, toasts := fallback.2
          uploadCalls := uploads, insertCalls := [row] }

/-! ### Spec-side descriptions of one sync pass

These recursions restate, index by index, which entries of the snapshot
fail, how many succeed, how many uploads happen, and which rows are
inserted; the theorems below show the loop realises them. -/

/-- The entries of the snapshot whose remote insert fails, in stored
order (`i` is the index of the head). -/
def failedOf (insertOk : Nat → Bool) :
    List PendingReport → Nat → List PendingReport
  | [], _ => []
  | r :: rest, i =>
    if insertOk i then failedOf insertOk rest (i + 1)
    else r :: failedOf insertOk rest (i + 1)

/-- How many entries of the snapshot insert successfully. -/
def succCount (insertOk : Nat → Bool) : List PendingReport → Nat → Nat
  | [], _ => 0
  | _ :: rest, i =>
    (if insertOk i then 1 else 0) + succCount insertOk rest (i + 1)

/-- How many entries of the snapshot carry a photo (= upload calls). -/
def photoCount : List PendingReport → Nat
  | [] => 0
  | r :: rest =>
    (match r.photo with | some _ => 1 | none => 0) + photoCount rest

/-- The insert rows issued for the snapshot, in order. -/
def insertRowsFrom (userId : String) (upload : Nat → Option String) :
    List PendingReport → Nat → List InsertRow
  | [], _ => []
  | r :: rest, i =>
    mkInsertRow userId r
        (match r.photo with | some _ => upload i | none => none)
      :: insertRowsFrom userId upload rest (i + 1)


/-! ### Lemmas about the sync loop -/

theorem succCount_le_length (insertOk : Nat → Bool)
    (l : List PendingReport) : ∀ i, succCount insertOk l i ≤ l.length := by
  induction l with
  | nil => intro i; simp [succCount]
  | cons r rest ih =>
    intro i
    have := ih (i + 1)
    simp only [succCount, List.length_cons]
    split <;> omega

theorem failedOf_length (insertOk : Nat → Bool) (l : List PendingReport) :
    ∀ i, (failedOf insertOk l i).length =
      l.length - succCount insertOk l i := by
  induction l with
  | nil => intro i; simp [failedOf, succCount]
  | cons r rest ih =>
    intro i
    have h1 := succCount_le_length insertOk rest (i + 1)
    have h2 := ih (i + 1)
    simp only [failedOf, succCount, List.length_cons]
    split
    · omega
    · simp only [List.length_cons]; omega

/-- Filtering out the id of the head of the middle, under distinct ids,
deletes exactly that element. -/
theorem filter_id_ne (pre rest : List PendingReport) (r : PendingReport)
    (h : ((pre ++ r :: rest).map PendingReport.id).Nodup) :
    (pre ++ r :: rest).filter (fun report => report.id ≠ r.id) =
      pre ++ rest := by
  have hmap :
      (pre.map PendingReport.id ++
        r.id :: rest.map PendingReport.id).Nodup := by
    simpa using h
  rw [List.nodup_append] at hmap
  obtain ⟨h1, h2, hdisj⟩ := hmap
  have hpre : ∀ a ∈ pre, a.id ≠ r.id := by
    intro a ha heq
    have hmem : a.id ∈ r.id :: rest.map PendingReport.id := by simp [heq]
    exact hdisj (List.mem_map_of_mem _ ha) hmem
  have hrid : r.id ∉ rest.map PendingReport.id := (List.nodup_cons.mp h2).1
  have hrest : ∀ a ∈ rest, a.id ≠ r.id := by
    intro a ha heq
    exact hrid (heq ▸ List.mem_map_of_mem _ ha)
  rw [List.filter_append]
  have e1 : pre.filter (fun report => report.id ≠ r.id) = pre :=
    List.filter_eq_self.mpr (fun a ha => by simpa using hpre a ha)
  have e2 : (r :: rest).filter (fun report => report.id ≠ r.id) = rest := by
    rw [List.filter_cons_of_neg (by simp)]
    exact List.filter_eq_self.mpr (fun a ha => by simpa using hrest a ha)
  rw [e1, e2]

/-- One unfolding of `syncLoop` on a non-empty snapshot. -/
theorem syncLoop_cons (userId : String) (upload : Nat → Option String)
    (insertOk : Nat → Bool) (r : PendingReport) (rest : List PendingReport)
    (i : Nat) (s : SyncState) :
    syncLoop userId upload insertOk (r :: rest) i s =
      if insertOk i then
        syncLoop userId upload insertOk rest (i + 1)
          { store := removePendingReport true r.id s.store
            syncedCount := s.syncedCount + 1
            failedCount := s.failedCount
            uploadCalls :=
              match r.photo with
              | some _ => s.uploadCalls + 1
              | none => s.uploadCalls
            insertCalls := s.insertCalls ++
              [mkInsertRow userId r
                (match r.photo with | some _ => upload i | none => none)] }
      else
        syncLoop userId upload insertOk rest (i + 1)
          { store := s.store
            syncedCount := s.syncedCount
            failedCount := s.failedCount + 1
            uploadCalls :=
              match r.photo with
              | some _ => s.uploadCalls + 1
              | none => s.uploadCalls
            insertCalls := s.insertCalls ++
              [mkInsertRow userId r
                (match r.photo with | some _ => upload i | none => none)] } :=
  rfl

theorem syncLoop_counts (userId : String) (upload : Nat → Option String)
    (insertOk : Nat → Bool) (l : List PendingReport) :
    ∀ (i : Nat) (s : SyncState),
      (syncLoop userId upload insertOk l i s).syncedCount =
          s.syncedCount + succCount insertOk l i ∧
      (syncLoop userId upload insertOk l i s).failedCount =
          s.failedCount + (l.length - succCount insertOk l i) ∧
      (syncLoop userId upload insertOk l i s).uploadCalls =
          s.uploadCalls + photoCount l ∧
      (syncLoop userId upload insertOk l i s).insertCalls =
          s.insertCalls ++ insertRowsFrom userId upload l i := by
  induction l with
  | nil =>
    intro i s
    simp [syncLoop, succCount, photoCount, insertRowsFrom]
  | cons r rest ih =>
    intro i s
    have hle := succCount_le_length insertOk rest (i + 1)
    rw [syncLoop_cons]
    cases hok : insertOk i with
    | true =>
      rw [if_pos rfl]
      cases hp : r.photo with
      | some f =>
        obtain ⟨ih1, ih2, ih3, ih4⟩ := ih (i + 1)
          { store := removePendingReport true r.id s.store
            syncedCount := s.syncedCount + 1
            failedCount := s.failedCount
            uploadCalls := s.uploadCalls + 1
            insertCalls := s.insertCalls ++ [mkInsertRow userId r (upload i)] }
        simp only [hp]
        refine ⟨?_, ?_, ?_, ?_⟩
        · rw [ih1]; simp [succCount, hok]; omega
        · rw [ih2]; simp [succCount, hok]; omega
        · rw [ih3]; simp [photoCount, hp]; omega
        · rw [ih4]; simp [insertRowsFrom, hp, List.append_assoc]
      | none =>
        obtain ⟨ih1, ih2, ih3, ih4⟩ := ih (i + 1)
          { store := removePendingReport true r.id s.store
            syncedCount := s.syncedCount + 1
            failedCount := s.failedCount
            uploadCalls := s.uploadCalls
            insertCalls := s.insertCalls ++ [mkInsertRow userId r none] }
        simp only [hp]
        refine ⟨?_, ?_, ?_, ?_⟩
        · rw [ih1]; simp [succCount, hok]; omega
        · rw [ih2]; simp [succCount, hok]; omega
        · rw [ih3]; simp [photoCount, hp]
        · rw [ih4]; simp [insertRowsFrom, hp, List.append_assoc]
    | false =>
      rw [if_neg (by simp)]
      cases hp : r.photo with
      | some f =>
        obtain ⟨ih1, ih2, ih3, ih4⟩ := ih (i + 1)
          { store := s.store
            syncedCount := s.syncedCount
            failedCount := s.failedCount + 1
            uploadCalls := s.uploadCalls + 1
            insertCalls := s.insertCalls ++ [mkInsertRow userId r (upload i)] }
        simp only [hp]
        refine ⟨?_, ?_, ?_, ?_⟩
        · rw [ih1]; simp [succCount, hok]
        · rw [ih2]; simp [succCount, hok]; omega
        · rw [ih3]; simp [photoCount, hp]; omega
        · rw [ih4]; simp [insertRowsFrom, hp, List.append_assoc]
      | none =>
        obtain ⟨ih1, ih2, ih3, ih4⟩ := ih (i + 1)
          { store := s.store
            syncedCount := s.syncedCount
            failedCount := s.failedCount + 1
            uploadCalls := s.uploadCalls
            insertCalls := s.insertCalls ++ [mkInsertRow userId r none] }
        simp only [hp]
        refine ⟨?_, ?_, ?_, ?_⟩
        · rw [ih1]; simp [succCount, hok]
        · rw [ih2]; simp [succCount, hok]; omega
        · rw [ih3]; simp [photoCount, hp]
        · rw [ih4]; simp [insertRowsFrom, hp, List.append_assoc]

theorem syncLoop_store (userId : String) (upload : Nat → Option String)
    (insertOk : Nat → Bool) (l : List PendingReport) :
    ∀ (pre : List PendingReport) (i : Nat) (sc fc uc : Nat)
      (ins : List InsertRow),
      ((pre ++ l).map PendingReport.id).Nodup →
      (syncLoop userId upload insertOk l i
        { store := { slot := some (pre ++ l) }, syncedCount := sc
          failedCount := fc, uploadCalls := uc, insertCalls := ins }).store =
      { slot := some (pre ++ failedOf insertOk l i) } := by
  induction l with
  | nil =>
    intro pre i sc fc uc ins h
    simp [syncLoop, failedOf]
  | cons r rest ih =>
    intro pre i sc fc uc ins h
    simp only [syncLoop_cons]
    cases hok : insertOk i with
    | true =>
      rw [if_pos rfl]
      have hrm : removePendingReport true r.id
          ({ slot := some (pre ++ r :: rest) } : Storage) =
          { slot := some (pre ++ rest) } := by
        show ({ slot := some ((pre ++ r :: rest).filter
            (fun report => report.id ≠ r.id)) } : Storage) = _
        rw [filter_id_ne pre rest r h]
      have hsub : ((pre ++ rest).map PendingReport.id).Nodup := by
        refine List.Nodup.sublist ?_ h
        exact List.Sublist.map PendingReport.id
          (List.Sublist.append_left (List.sublist_cons_self r rest) pre)
      simp only [hrm, failedOf]
      rw [hok, if_pos rfl]
      exact ih pre (i + 1) _ _ _ _ hsub
    | false =>
      rw [if_neg (by simp)]
      have heq : pre ++ r :: rest = (pre ++ [r]) ++ rest := by simp
      have hsub : (((pre ++ [r]) ++ rest).map PendingReport.id).Nodup := by
        rw [← heq]; exact h
      simp only [failedOf]
      rw [hok, if_neg (by simp)]
      have heq2 : pre ++ r :: failedOf insertOk rest (i + 1) =
          (pre ++ [r]) ++ failedOf insertOk rest (i + 1) := by simp
      rw [heq, heq2]
      exact ih (pre ++ [r]) (i + 1) _ _ _ _ hsub

/-- The two aggregate sync toasts, as a single list: one success toast
when anything synced, one failure toast when anything failed. -/
def aggregateToasts (synced failed : Nat) : List Toast :=
  (if synced > 0 then [Toast.reportsSynced synced] else []) ++
  (if failed > 0 then [Toast.syncIssues failed] else [])

/-- On a non-empty snapshot the pass's toasts are exactly the aggregate
pair determined by its two counters. -/
theorem syncPendingReports_toasts (uid : String)
    (upload : Nat → Option String) (insertOk : Nat → Bool)
    (r : PendingReport) (rest : List PendingReport) :
    (syncPendingReports (some uid) true upload insertOk
        ⟨some (r :: rest)⟩).toasts =
      aggregateToasts
        (syncPendingReports (some uid) true upload insertOk
          ⟨some (r :: rest)⟩).syncedCount
        (syncPendingReports (some uid) true upload insertOk
          ⟨some (r :: rest)⟩).failedCount := by
  show (if (syncLoop uid upload insertOk (r :: rest) 0
          ⟨⟨some (r :: rest)⟩, 0, 0, 0, []⟩).failedCount > 0 then
        (if (syncLoop uid upload insertOk (r :: rest) 0
            ⟨⟨some (r :: rest)⟩, 0, 0, 0, []⟩).syncedCount > 0 then
          [Toast.reportsSynced (syncLoop uid upload insertOk
            (r :: rest) 0
            ⟨⟨some (r :: rest)⟩, 0, 0, 0, []⟩).syncedCount]
        else []) ++
          [Toast.syncIssues (syncLoop uid upload insertOk (r :: rest) 0
            ⟨⟨some (r :: rest)⟩, 0, 0, 0, []⟩).failedCount]
      else
        (if (syncLoop uid upload insertOk (r :: rest) 0
            ⟨⟨some (r :: rest)⟩, 0, 0, 0, []⟩).syncedCount > 0 then
          [Toast.reportsSynced (syncLoop uid upload insertOk
            (r :: rest) 0
            ⟨⟨some (r :: rest)⟩, 0, 0, 0, []⟩).syncedCount]
        else [])) =
      aggregateToasts
        (syncLoop uid upload insertOk (r :: rest) 0
          ⟨⟨some (r :: rest)⟩, 0, 0, 0, []⟩).syncedCount
        (syncLoop uid upload insertOk (r :: rest) 0
          ⟨⟨some (r :: rest)⟩, 0, 0, 0, []⟩).failedCount
  unfold aggregateToasts
  split <;> simp

/-- Full characterisation of a sync pass invoked with an authenticated
user while online, over a store with pairwise-distinct ids. -/
theorem syncPendingReports_run (uid : String)
    (upload : Nat → Option String) (insertOk : Nat → Bool) (st : Storage)
    (h : ((getPendingReports st).map PendingReport.id).Nodup) :
    getPendingReports
        (syncPendingReports (some uid) true upload insertOk st).store =
      failedOf insertOk (getPendingReports st) 0 ∧
    (syncPendingReports (some uid) true upload insertOk st).syncedCount =
      succCount insertOk (getPendingReports st) 0 ∧
    (syncPendingReports (some uid) true upload insertOk st).failedCount =
      (getPendingReports st).length -
        succCount insertOk (getPendingReports st) 0 ∧
    (syncPendingReports (some uid) true upload insertOk st).uploadCalls =
      photoCount (getPendingReports st) ∧
    (syncPendingReports (some uid) true upload insertOk st).insertCalls =
      insertRowsFrom uid upload (getPendingReports st) 0 ∧
    (syncPendingReports (some uid) true upload insertOk st).toasts =
      aggregateToasts
        (syncPendingReports (some uid) true upload insertOk st).syncedCount
        (syncPendingReports (some uid) true upload insertOk st).failedCount
    := by
  obtain ⟨slot⟩ := st
  cases slot with
  | none =>
    simp [syncPendingReports, getPendingReports, failedOf, succCount,
      photoCount, insertRowsFrom, aggregateToasts]
  | some l =>
    cases l with
    | nil =>
      simp [syncPendingReports, getPendingReports, failedOf, succCount,
        photoCount, insertRowsFrom, aggregateToasts]
    | cons r rest =>
      have hn : ((([] : List PendingReport) ++ r :: rest).map
          PendingReport.id).Nodup := by
        simpa [getPendingReports] using h
      obtain ⟨c1, c2, c3, c4⟩ := syncLoop_counts uid upload insertOk
        (r :: rest) 0 ⟨⟨some (r :: rest)⟩, 0, 0, 0, []⟩
      have hstore := syncLoop_store uid upload insertOk (r :: rest)
        [] 0 0 0 0 [] hn
      simp only [List.nil_append] at hstore
      refine ⟨?_, ?_, ?_, ?_, ?_, ?_⟩
      · have hst :
            (syncPendingReports (some uid) true upload insertOk
              ⟨some (r :: rest)⟩).store =
            (⟨some (failedOf insertOk (r :: rest) 0)⟩ : Storage) := hstore
        rw [hst]
        simp [getPendingReports]
      · show (syncLoop uid upload insertOk (r :: rest) 0
            ⟨⟨some (r :: rest)⟩, 0, 0, 0, []⟩).syncedCount =
          succCount insertOk (getPendingReports ⟨some (r :: rest)⟩) 0
        rw [c1]; simp [getPendingReports]
      · show (syncLoop uid upload insertOk (r :: rest) 0
            ⟨⟨some (r :: rest)⟩, 0, 0, 0, []⟩).failedCount =
          (getPendingReports ⟨some (r :: rest)⟩).length -
            succCount insertOk (getPendingReports ⟨some (r :: rest)⟩) 0
        rw [c2]; simp [getPendingReports]
      · show (syncLoop uid upload insertOk (r :: rest) 0
            ⟨⟨some (r :: rest)⟩, 0, 0, 0, []⟩).uploadCalls =
          photoCount (getPendingReports ⟨some (r :: rest)⟩)
        rw [c3]; simp [getPendingReports]
      · show (syncLoop uid upload insertOk (r :: rest) 0
            ⟨⟨some (r :: rest)⟩, 0, 0, 0, []⟩).insertCalls =
          insertRowsFrom uid upload (getPendingReports ⟨some (r :: rest)⟩) 0
        rw [c4]; simp [getPendingReports]
      · exact syncPendingReports_toasts uid upload insertOk r rest

/-- The insert rows a pass issues, over any store (no id-uniqueness
needed: removals do not affect the issued rows). -/
theorem syncPendingReports_insertCalls (uid : String)
    (upload : Nat → Option String) (insertOk : Nat → Bool) (st : Storage) :
    (syncPendingReports (some uid) true upload insertOk st).insertCalls =
      insertRowsFrom uid upload (getPendingReports st) 0 := by
  obtain ⟨slot⟩ := st
  cases slot with
  | none => simp [syncPendingReports, getPendingReports, insertRowsFrom]
  | some l =>
    cases l with
    | nil => simp [syncPendingReports, getPendingReports, insertRowsFrom]
    | cons r rest =>
      obtain ⟨_, _, _, c4⟩ := syncLoop_counts uid upload insertOk
        (r :: rest) 0 ⟨⟨some (r :: rest)⟩, 0, 0, 0, []⟩
      show (syncLoop uid upload insertOk (r :: rest) 0
          ⟨⟨some (r :: rest)⟩, 0, 0, 0, []⟩).insertCalls =
        insertRowsFrom uid upload (getPendingReports ⟨some (r :: rest)⟩) 0
      rw [c4]; simp [getPendingReports]

theorem failedOf_allTrue (insertOk : Nat → Bool)
    (hall : ∀ i, insertOk i = true) (l : List PendingReport) :
    ∀ i, failedOf insertOk l i = [] := by
  induction l with
  | nil => intro i; simp [failedOf]
  | cons r rest ih => intro i; simp [failedOf, hall, ih]

theorem succCount_allTrue (insertOk : Nat → Bool)
    (hall : ∀ i, insertOk i = true) (l : List PendingReport) :
    ∀ i, succCount insertOk l i = l.length := by
  induction l with
  | nil => intro i; simp [succCount]
  | cons r rest ih =>
    intro i
    simp only [succCount, List.length_cons, hall, if_true, ih]
    omega

/-- Every entry left by the spec-side failure selection sits at some
snapshot position whose insert failed. -/
theorem failedOf_mem_index (insertOk : Nat → Bool) (l : List PendingReport) :
    ∀ i x, x ∈ failedOf insertOk l i →
      ∃ j, l[j]? = some x ∧ insertOk (i + j) = false := by
  induction l with
  | nil => intro i x hx; simp [failedOf] at hx
  | cons r rest ih =>
    intro i x hx
    simp only [failedOf] at hx
    cases hok : insertOk i with
    | true =>
      rw [hok, if_pos rfl] at hx
      obtain ⟨j, hj, hins⟩ := ih (i + 1) x hx
      refine ⟨j + 1, by simpa using hj, ?_⟩
      have harith : i + (j + 1) = (i + 1) + j := by omega
      rw [harith]; exact hins
    | false =>
      rw [hok, if_neg (by simp)] at hx
      cases List.mem_cons.mp hx with
      | inl hxr =>
        exact ⟨0, by simp [hxr], by simpa using hok⟩
      | inr hxrest =>
        obtain ⟨j, hj, hins⟩ := ih (i + 1) x hxrest
        refine ⟨j + 1, by simpa using hj, ?_⟩
        have harith : i + (j + 1) = (i + 1) + j := by omega
        rw [harith]; exact hins

theorem succCount_pos_of_index (insertOk : Nat → Bool)
    (l : List PendingReport) :
    ∀ i j r, l[j]? = some r → insertOk (i + j) = true →
      0 < succCount insertOk l i := by
  induction l with
  | nil => intro i j r hj; simp at hj
  | cons a rest ih =>
    intro i j r hj hins
    cases j with
    | zero =>
      have hok : insertOk i = true := by simpa using hins
      simp only [succCount, hok, if_true]
      omega
    | succ j =>
      have harith : i + (j + 1) = (i + 1) + j := by omega
      rw [harith] at hins
      have := ih (i + 1) j r (by simpa using hj) hins
      simp only [succCount]
      omega

theorem insertRowsFrom_getElem (uid : String)
    (upload : Nat → Option String) (l : List PendingReport) :
    ∀ i j, (insertRowsFrom uid upload l i)[j]? =
      (l[j]?).map (fun r => mkInsertRow uid r
        (match r.photo with | some _ => upload (i + j) | none => none)) := by
  induction l with
  | nil => intro i j; simp [insertRowsFrom]
  | cons r rest ih =>
    intro i j
    cases j with
    | zero => simp [insertRowsFrom]
    | succ j =>
      simp only [insertRowsFrom, List.getElem?_cons_succ]
      rw [ih (i + 1) j]
      have harith : i + (j + 1) = (i + 1) + j := by omega
      rw [harith]

/-- `getPendingReports` after a successful `removePendingReport` is the
filtered collection. -/
theorem getPendingReports_remove (id : String) (st : Storage) :
    getPendingReports (removePendingReport true id st) =
      (getPendingReports st).filter (fun report => report.id ≠ id) :=
  rfl

/-! ### Concrete sample data for witnesses -/

/-- A sample stored pending report without photo and with empty notes. -/
def rptA : PendingReport :=
  { id := "a", type := "rip_current", severity := 3, lat := 37, lng := -122
    notes := some "", photo := none, timestamp := 10
    status := "pending_upload" }

/-- A sample stored pending report carrying a photo reference. -/
def rptB : PendingReport :=
  { id := "b", type := "debris", severity := 2, lat := 36, lng := -121
    notes := some "floating log", photo := some "b.jpg", timestamp := 11
    status := "pending_upload" }

/-- A sample save candidate. -/
def inpC : ReportInput :=
  { type := "jellyfish", severity := 1, lat := 35, lng := -120
    notes := none, photo := none }

/-! ### The claims -/

/-- Claim C2: a sync pass invoked with no authenticated user, or while
the connectivity signal reads offline, performs no store mutation, issues
no remote upload or insert call, and shows no notification. -/
theorem sync_guard_noop (user : Option String) (online : Bool)
    (upload : Nat → Option String) (insertOk : Nat → Bool) (st : Storage) :
    syncPendingReports none online upload insertOk st =
      { store := st, syncedCount := 0, failedCount := 0, uploadCalls := 0
        insertCalls := [], toasts := [] } ∧
    syncPendingReports user false upload insertOk st =
      { store := st, syncedCount := 0, failedCount := 0, uploadCalls := 0
        insertCalls := [], toasts := [] } := by
  constructor
  · simp [syncPendingReports]
  · simp [syncPendingReports]

/-- Claim C5: `save` of a valid input appends exactly one record at the
end whose type, severity, coordinates, notes and photo match the input,
whose status is `pending_upload` and whose id is the freshly generated
one, which `save` returns; and when persistence raises, `save` returns
the null sentinel and leaves the store untouched. -/
theorem save_appends_record (freshId : String) (now : Nat)
    (input : ReportInput) (st : Storage) :
    (savePendingReport true freshId now input st).1 = some freshId ∧
    getPendingReports (savePendingReport true freshId now input st).2 =
      getPendingReports st ++
        [{ id := freshId, type := input.type, severity := input.severity
           lat := input.lat, lng := input.lng, notes := input.notes
           photo := input.photo, timestamp := now
           status := "pending_upload" }] ∧
    savePendingReport false freshId now input st = (none, st) :=
  ⟨rfl, rfl, rfl⟩

/-- Claim C6: `save` followed by `remove` of the returned id restores the
original collection, provided the generated id was fresh. -/
theorem save_remove_roundtrip (freshId : String) (now : Nat)
    (input : ReportInput) (st : Storage)
    (h : freshId ∉ (getPendingReports st).map PendingReport.id) :
    (savePendingReport true freshId now input st).1 = some freshId ∧
    getPendingReports (removePendingReport true freshId
        (savePendingReport true freshId now input st).2) =
      getPendingReports st := by
  refine ⟨rfl, ?_⟩
  rw [getPendingReports_remove]
  have hsave : getPendingReports (savePendingReport true freshId now
      input st).2 = getPendingReports st ++
        [{ id := freshId, type := input.type, severity := input.severity
           lat := input.lat, lng := input.lng, notes := input.notes
           photo := input.photo, timestamp := now
           status := "pending_upload" }] := rfl
  rw [hsave, List.filter_append]
  have h1 : (getPendingReports st).filter
      (fun report => report.id ≠ freshId) = getPendingReports st := by
    refine List.filter_eq_self.mpr (fun a ha => ?_)
    simp only [ne_eq, decide_not, Bool.not_eq_eq_eq_not, Bool.not_true,
      decide_eq_false_iff_not]
    intro heq
    exact h (heq ▸ List.mem_map_of_mem _ ha)
  rw [h1]
  simp

/-- Witness for C6 at a concrete store and fresh id. -/
theorem save_remove_roundtrip_witness :
    ("c" ∉ (getPendingReports ⟨some [rptA]⟩).map PendingReport.id) ∧
    getPendingReports (removePendingReport true "c"
        (savePendingReport true "c" 5 inpC ⟨some [rptA]⟩).2) =
      getPendingReports ⟨some [rptA]⟩ :=
  ⟨by decide,
   (save_remove_roundtrip "c" 5 inpC ⟨some [rptA]⟩ (by decide)).2⟩

/-- Claim C7: `remove` keeps exactly the entries with a different id, in
their original order; it is idempotent as a store transformation; remove
of an absent id leaves the contents unchanged; and when persistence
raises the store is untouched (the exception is swallowed). -/
theorem remove_idempotent_frame (id : String) (st : Storage) :
    getPendingReports (removePendingReport true id st) =
      (getPendingReports st).filter (fun report => report.id ≠ id) ∧
    removePendingReport true id (removePendingReport true id st) =
      removePendingReport true id st ∧
    (id ∉ (getPendingReports st).map PendingReport.id →
      getPendingReports (removePendingReport true id st) =
        getPendingReports st) ∧
    removePendingReport false id st = st := by
  refine ⟨rfl, ?_, ?_, rfl⟩
  · have hx : removePendingReport true id st =
        ⟨some ((getPendingReports st).filter
          (fun report => report.id ≠ id))⟩ := rfl
    rw [hx]
    have hy : removePendingReport true id
        ⟨some ((getPendingReports st).filter
          (fun report => report.id ≠ id))⟩ =
        ⟨some (((getPendingReports st).filter
          (fun report => report.id ≠ id)).filter
            (fun report => report.id ≠ id))⟩ := rfl
    rw [hy,
      List.filter_eq_self.mpr (fun a ha => (List.mem_filter.mp ha).2)]
  · intro hid
    rw [getPendingReports_remove]
    refine List.filter_eq_self.mpr (fun a ha => ?_)
    simp only [ne_eq, decide_not, Bool.not_eq_eq_eq_not, Bool.not_true,
      decide_eq_false_iff_not]
    intro heq
    exact hid (heq ▸ List.mem_map_of_mem _ ha)

/-- Witness for C7 at a concrete store and an absent id. -/
theorem remove_idempotent_frame_witness :
    ("z" ∉ (getPendingReports ⟨some [rptA, rptB]⟩).map PendingReport.id) ∧
    getPendingReports (removePendingReport true "z" ⟨some [rptA, rptB]⟩) =
      getPendingReports ⟨some [rptA, rptB]⟩ :=
  ⟨by decide,
   (remove_idempotent_frame "z" ⟨some [rptA, rptB]⟩).2.2.1 (by decide)⟩

/-- The ids seen by `getPendingReports` after a successful save. -/
theorem getPendingReports_save_ids (freshId : String) (now : Nat)
    (input : ReportInput) (st : Storage) :
    (getPendingReports (savePendingReport true freshId now
        input st).2).map PendingReport.id =
      (getPendingReports st).map PendingReport.id ++ [freshId] := by
  have hsave : getPendingReports (savePendingReport true freshId now
      input st).2 = getPendingReports st ++
        [{ id := freshId, type := input.type, severity := input.severity
           lat := input.lat, lng := input.lng, notes := input.notes
           photo := input.photo, timestamp := now
           status := "pending_upload" }] := rfl
  rw [hsave, List.map_append]
  rfl

/-- Store states reachable from the absent-storage initial state by
`savePendingReport`, `removePendingReport` and `clearPendingReports`, any
of which may hit a persistence error (`ok = false`); each save's
generated id is assumed fresh for the current store. -/
inductive ReachableStore : Storage → Prop where
  | init : ReachableStore ⟨none⟩
  | save (ok : Bool) (freshId : String) (now : Nat) (input : ReportInput)
      (st : Storage) : ReachableStore st →
      freshId ∉ (getPendingReports st).map PendingReport.id →
      ReachableStore (savePendingReport ok freshId now input st).2
  | remove (ok : Bool) (id : String) (st : Storage) :
      ReachableStore st → ReachableStore (removePendingReport ok id st)
  | clear (ok : Bool) (st : Storage) :
      ReachableStore st → ReachableStore (clearPendingReports ok st)

/-- Claim C9: assuming each generated id is fresh, every store reachable
from the empty store by save, remove and clear holds pairwise-distinct
ids; all three operations preserve the invariant. -/
theorem reachable_ids_nodup (st : Storage) (h : ReachableStore st) :
    ((getPendingReports st).map PendingReport.id).Nodup := by
  induction h with
  | init => simp [getPendingReports]
  | save ok freshId now input st hst hfresh ih =>
    cases ok with
    | false => exact ih
    | true =>
      rw [getPendingReports_save_ids]
      simp only [List.nodup_append, List.nodup_cons, List.not_mem_nil,
        not_false_eq_true, List.nodup_nil, and_true, true_and,
        List.disjoint_singleton]
      exact ⟨ih, hfresh⟩
  | remove ok id st hst ih =>
    cases ok with
    | false => exact ih
    | true =>
      exact List.Nodup.sublist
        (List.Sublist.map PendingReport.id (List.filter_sublist _)) ih
  | clear ok st hst ih =>
    cases ok with
    | false => exact ih
    | true => exact List.nodup_nil

/-- Witness for C9: a store built by one fresh save from empty storage. -/
theorem reachable_ids_nodup_witness :
    ((getPendingReports (savePendingReport true "a" 10 inpC
        ⟨none⟩).2).map PendingReport.id).Nodup :=
  reachable_ids_nodup _
    (ReachableStore.save true "a" 10 inpC ⟨none⟩ ReachableStore.init
      (by decide))

/-- Claim C1: an authenticated, online sync pass over a store with
distinct ids leaves exactly the insert-failed entries, in stored order;
it reports failed = k (the number of failed entries) and synced = N - k;
when every insert succeeds the store is emptied with synced = N,
failed = 0. -/
theorem sync_pass_partition (uid : String)
    (upload : Nat → Option String) (insertOk : Nat → Bool) (st : Storage)
    (h : ((getPendingReports st).map PendingReport.id).Nodup) :
    getPendingReports
        (syncPendingReports (some uid) true upload insertOk st).store =
      failedOf insertOk (getPendingReports st) 0 ∧
    (syncPendingReports (some uid) true upload insertOk st).failedCount =
      (failedOf insertOk (getPendingReports st) 0).length ∧
    (syncPendingReports (some uid) true upload insertOk st).syncedCount =
      (getPendingReports st).length -
        (failedOf insertOk (getPendingReports st) 0).length ∧
    (syncPendingReports (some uid) true upload insertOk st).syncedCount +
      (syncPendingReports (some uid) true upload insertOk st).failedCount =
      (getPendingReports st).length ∧
    ((∀ i, insertOk i = true) →
      getPendingReports
          (syncPendingReports (some uid) true upload insertOk st).store =
        [] ∧
      (syncPendingReports (some uid) true upload insertOk st).syncedCount =
        (getPendingReports st).length ∧
      (syncPendingReports (some uid) true upload insertOk st).failedCount =
        0) := by
  obtain ⟨h1, h2, h3, _, _, _⟩ :=
    syncPendingReports_run uid upload insertOk st h
  have hlen := failedOf_length insertOk (getPendingReports st) 0
  have hle := succCount_le_length insertOk (getPendingReports st) 0
  refine ⟨h1, by omega, by omega, by omega, ?_⟩
  intro hall
  have hfe := failedOf_allTrue insertOk hall (getPendingReports st) 0
  have hse := succCount_allTrue insertOk hall (getPendingReports st) 0
  refine ⟨by rw [h1, hfe], by omega, by omega⟩

/-- Witness for C1: two stored reports, the first insert succeeds and the
second fails, leaving exactly the second with synced = failed = 1. -/
theorem sync_pass_partition_witness :
    ((getPendingReports ⟨some [rptA, rptB]⟩).map PendingReport.id).Nodup ∧
    getPendingReports (syncPendingReports (some "u") true (fun _ => none)
        (fun i => decide (i = 0)) ⟨some [rptA, rptB]⟩).store =
      failedOf (fun i => decide (i = 0))
        (getPendingReports ⟨some [rptA, rptB]⟩) 0 :=
  ⟨by decide,
   (sync_pass_partition "u" (fun _ => none) (fun i => decide (i = 0))
     ⟨some [rptA, rptB]⟩ (by decide)).1⟩

/-- Counterexample to C8 as stated: a guard-passing pass over a
non-empty store in which every insert succeeds shows only the single
synced-count toast, not two. -/
theorem sync_exactly_two_toasts_cex :
    getPendingReports ⟨some [rptA]⟩ ≠ [] ∧
    (syncPendingReports (some "u") true (fun _ => none) (fun _ => true)
      ⟨some [rptA]⟩).toasts = [Toast.reportsSynced 1] ∧
    (syncPendingReports (some "u") true (fun _ => none) (fun _ => true)
      ⟨some [rptA]⟩).toasts.length ≠ 2 := by decide

/-- Claim C8 (amended): a guard-passing pass over a non-empty store
surfaces at most two aggregate toasts — the synced-count toast exactly
when anything synced and the failed-count toast exactly when anything
failed — at least one of them, and never any other (per-item)
notification. -/
theorem sync_toasts_amended (uid : String) (upload : Nat → Option String)
    (insertOk : Nat → Bool) (st : Storage)
    (hne : getPendingReports st ≠ []) :
    (syncPendingReports (some uid) true upload insertOk st).toasts =
      aggregateToasts
        (syncPendingReports (some uid) true upload insertOk st).syncedCount
        (syncPendingReports (some uid) true upload insertOk st).failedCount ∧
    (syncPendingReports (some uid) true upload insertOk st).toasts ≠ [] ∧
    (syncPendingReports (some uid) true upload insertOk st).toasts.length
      ≤ 2 ∧
    (∀ t ∈ (syncPendingReports (some uid) true upload insertOk st).toasts,
      t = Toast.reportsSynced
            (syncPendingReports (some uid) true upload insertOk
              st).syncedCount ∨
      t = Toast.syncIssues
            (syncPendingReports (some uid) true upload insertOk
              st).failedCount) := by
  obtain ⟨slot⟩ := st
  cases slot with
  | none => simp [getPendingReports] at hne
  | some l =>
    cases l with
    | nil => simp [getPendingReports] at hne
    | cons r rest =>
      obtain ⟨c1, c2, _, _⟩ := syncLoop_counts uid upload insertOk
        (r :: rest) 0 ⟨⟨some (r :: rest)⟩, 0, 0, 0, []⟩
      have ht := syncPendingReports_toasts uid upload insertOk r rest
      have e1 : (syncPendingReports (some uid) true upload insertOk
          ⟨some (r :: rest)⟩).syncedCount =
          succCount insertOk (r :: rest) 0 := by
        show (syncLoop uid upload insertOk (r :: rest) 0
          ⟨⟨some (r :: rest)⟩, 0, 0, 0, []⟩).syncedCount = _
        rw [c1]; simp
      have e2 : (syncPendingReports (some uid) true upload insertOk
          ⟨some (r :: rest)⟩).failedCount =
          (r :: rest).length - succCount insertOk (r :: rest) 0 := by
        show (syncLoop uid upload insertOk (r :: rest) 0
          ⟨⟨some (r :: rest)⟩, 0, 0, 0, []⟩).failedCount = _
        rw [c2]; simp
      have hle := succCount_le_length insertOk (r :: rest) 0
      have hsum : 0 <
          (syncPendingReports (some uid) true upload insertOk
            ⟨some (r :: rest)⟩).syncedCount +
          (syncPendingReports (some uid) true upload insertOk
            ⟨some (r :: rest)⟩).failedCount := by
        rw [e1, e2]
        simp only [List.length_cons] at *
        omega
      refine ⟨ht, ?_, ?_, ?_⟩
      · rw [ht]
        unfold aggregateToasts
        by_cases hs : 0 < (syncPendingReports (some uid) true upload
            insertOk ⟨some (r :: rest)⟩).syncedCount
        · simp [hs]
        · have hf : 0 < (syncPendingReports (some uid) true upload
              insertOk ⟨some (r :: rest)⟩).failedCount := by omega
          simp [hs, hf]
      · rw [ht]
        unfold aggregateToasts
        split <;> split <;> simp
      · intro t htm
        rw [ht] at htm
        unfold aggregateToasts at htm
        rcases List.mem_append.mp htm with hmem | hmem
        · left
          by_cases hs : 0 < (syncPendingReports (some uid) true upload
              insertOk ⟨some (r :: rest)⟩).syncedCount
          · simpa [hs] using hmem
          · simp [hs] at hmem
        · right
          by_cases hf : 0 < (syncPendingReports (some uid) true upload
              insertOk ⟨some (r :: rest)⟩).failedCount
          · simpa [hf] using hmem
          · simp [hf] at hmem

/-- Witness for the amended C8 at a concrete failing pass. -/
theorem sync_toasts_amended_witness :
    getPendingReports ⟨some [rptA]⟩ ≠ [] ∧
    (syncPendingReports (some "u") true (fun _ => none) (fun _ => false)
      ⟨some [rptA]⟩).toasts ≠ [] :=
  ⟨by decide,
   (sync_toasts_amended "u" (fun _ => none) (fun _ => false)
     ⟨some [rptA]⟩ (by decide)).2.1⟩

/-- Claim C4: a pending report with a photo whose remote upload fails is
still inserted, with a null photo URL; when that insert succeeds the
report leaves the store and the synced counter is positive. -/
theorem sync_photo_fallback (uid : String) (upload : Nat → Option String)
    (insertOk : Nat → Bool) (st : Storage) (j : Nat) (r : PendingReport)
    (f : String)
    (h : ((getPendingReports st).map PendingReport.id).Nodup)
    (hj : (getPendingReports st)[j]? = some r)
    (hphoto : r.photo = some f)
    (hupload : upload j = none) :
    (syncPendingReports (some uid) true upload insertOk
        st).insertCalls[j]? = some (mkInsertRow uid r none) ∧
    (insertOk j = true →
      r.id ∉ (getPendingReports (syncPendingReports (some uid) true upload
        insertOk st).store).map PendingReport.id ∧
      0 < (syncPendingReports (some uid) true upload insertOk
        st).syncedCount) := by
  obtain ⟨h1, h2, _, _, _, _⟩ :=
    syncPendingReports_run uid upload insertOk st h
  constructor
  · rw [syncPendingReports_insertCalls, insertRowsFrom_getElem, hj]
    simp [hphoto, hupload]
  · intro hins
    constructor
    · rw [h1]
      intro hmem
      obtain ⟨x, hxmem, hxid⟩ := List.mem_map.mp hmem
      obtain ⟨k, hk, hkf⟩ :=
        failedOf_mem_index insertOk (getPendingReports st) 0 x hxmem
      have hkf' : insertOk k = false := by simpa using hkf
      have hjm : ((getPendingReports st).map
          PendingReport.id)[j]? = some r.id := by
        rw [List.getElem?_map, hj]; rfl
      have hkm : ((getPendingReports st).map
          PendingReport.id)[k]? = some r.id := by
        rw [List.getElem?_map, hk]
        simp [hxid]
      have hjlen : j < ((getPendingReports st).map
          PendingReport.id).length := by
        rw [List.length_map]
        by_contra hc
        rw [List.getElem?_eq_none (by omega)] at hj
        cases hj
      have hjk := List.getElem?_inj hjlen h (hjm.trans hkm.symm)
      rw [← hjk] at hkf'
      rw [hins] at hkf'
      exact absurd hkf' (by simp)
    · rw [h2]
      exact succCount_pos_of_index insertOk (getPendingReports st) 0 j r
        hj (by simpa using hins)

/-- Witness for C4: one stored report with a photo, failed upload,
successful insert. -/
theorem sync_photo_fallback_witness :
    ((getPendingReports ⟨some [rptB]⟩).map PendingReport.id).Nodup ∧
    (syncPendingReports (some "u") true (fun _ => none) (fun _ => true)
      ⟨some [rptB]⟩).insertCalls[0]? = some (mkInsertRow "u" rptB none) :=
  ⟨by decide,
   (sync_photo_fallback "u" (fun _ => none) (fun _ => true)
     ⟨some [rptB]⟩ 0 rptB "b.jpg" (by decide) (by decide) rfl rfl).1⟩

/-- Claim C10: a pending report whose notes are absent or the empty
string is inserted with null notes — the empty string is never
transmitted. -/
theorem sync_empty_notes_null (uid : String)
    (upload : Nat → Option String) (insertOk : Nat → Bool) (st : Storage)
    (j : Nat) (r : PendingReport)
    (hj : (getPendingReports st)[j]? = some r)
    (hnotes : r.notes = none ∨ r.notes = some "") :
    ((syncPendingReports (some uid) true upload insertOk
        st).insertCalls[j]?).map InsertRow.notes = some none := by
  rw [syncPendingReports_insertCalls, insertRowsFrom_getElem, hj]
  cases hnotes with
  | inl hn => simp [mkInsertRow, jsOrNull, hn]
  | inr hn => simp [mkInsertRow, jsOrNull, hn]

/-- Witness for C10: a stored report with empty-string notes. -/
theorem sync_empty_notes_null_witness :
    (getPendingReports ⟨some [rptA]⟩)[0]? = some rptA ∧
    ((syncPendingReports (some "u") true (fun _ => none) (fun _ => true)
      ⟨some [rptA]⟩).insertCalls[0]?).map InsertRow.notes = some none :=
  ⟨by decide,
   sync_empty_notes_null "u" (fun _ => none) (fun _ => true)
     ⟨some [rptA]⟩ 0 rptA (by decide) (Or.inr rfl)⟩

/-- Claim C3: submission by an authenticated user. While the signal reads
offline at submit time the report is queued via `save` with the
offline-saved toast and no remote call. When the live path's insert
fails, the report is queued via the fallback `save` exactly when the
signal reads offline at failure time; while it still reads online a
submission-error toast is surfaced and the store is untouched. -/
theorem submit_connectivity_paths (uid : String) (p1 p2 insertOk : Bool)
    (fresh1 fresh2 : String) (now : Nat) (uploadResult : Option String)
    (onlineAtFailure : Bool) (data : ReportFormData)
    (photoFile : Option String) (st : Storage) :
    onSubmit (some uid) false true p2 fresh1 fresh2 now uploadResult
        insertOk onlineAtFailure data photoFile st =
      { store := (savePendingReport true fresh1 now
          (formInput data photoFile) st).2
        toasts := [Toast.reportSavedOffline]
        uploadCalls := 0, insertCalls := [] } ∧
    onSubmit (some uid) true p1 p2 fresh1 fresh2 now uploadResult
        false true data photoFile st =
      { store := st
        toasts := (match photoFile, uploadResult with
          | some _, none => [Toast.uploadError]
          | _, _ => []) ++ [Toast.submissionError]
        uploadCalls := (match photoFile with | some _ => 1 | none => 0)
        insertCalls :=
          [{ user_id := uid, type := data.type,
             severity := data.severity, lat := data.lat, lng := data.lng,
             notes := jsOrNull data.notes,
             photo_url := (match photoFile with
               | some _ => uploadResult
               | none => none),
             status := "pending" }] } ∧
    onSubmit (some uid) true p1 true fresh1 fresh2 now uploadResult
        false false data photoFile st =
      { store := (savePendingReport true fresh2 now
          (formInput data photoFile) st).2
        toasts := (match photoFile, uploadResult with
          | some _, none => [Toast.uploadError]
          | _, _ => []) ++ [Toast.savedOffline]
        uploadCalls := (match photoFile with | some _ => 1 | none => 0)
        insertCalls :=
          [{ user_id := uid, type := data.type,
             severity := data.severity, lat := data.lat, lng := data.lng,
             notes := jsOrNull data.notes,
             photo_url := (match photoFile with
               | some _ => uploadResult
               | none => none),
             status := "pending" }] } := by
  refine ⟨rfl, ?_, ?_⟩ <;> cases photoFile <;> cases uploadResult <;> rfl

end CoastWatch
